import Mathlib

/-!
Verification development for a pandas-based web-analytics reporting pipeline
(`travis_magaluk_coding_exercise.py`).  The pipeline cleans two raw tables
(session counts, cart adds), derives month names and a categorical month
ordering, and produces four report tables.

Numeric columns are embedded as exact rationals; float results of divisions
and differences are embedded as `PFloat`, a rational extended with the IEEE
special values `inf`, `-inf` and `nan` (rounding of binary floats is
abstracted away, the special-value propagation of numpy/pandas is kept).
Categorical columns are embedded as a list of category labels (`monthCats`)
carried next to the row list, mirroring `pd.Categorical`.  Grouping by a
categorical key produces one group per category in category order, as pandas
does with its historical `observed=False` default (the code's own
`fillna(0)` / drop-all-zero step in `create_mtm_compare` exists precisely to
discard the empty groups this produces).
-/

deriving instance DecidableEq for Except

namespace WebAgg

/-- Surrogate for a pandas float64 cell: an exact rational or one of the
IEEE special values produced by division by zero and NaN propagation. -/

inductive PFloat where
  | rat (q : ℚ)
  | inf
  | ninf
  | nan
deriving DecidableEq

/-- IEEE-style addition on `PFloat` (used by pandas sums of float columns). -/

def PFloat.add : PFloat → PFloat → PFloat
  | .rat a, .rat b => .rat (a + b)
  | .nan, _ => .nan
  | _, .nan => .nan
  | .inf, .ninf => .nan
  | .ninf, .inf => .nan
  | .inf, _ => .inf
  | _, .inf => .inf
  | .ninf, _ => .ninf
  | _, .ninf => .ninf

/-- IEEE-style subtraction on `PFloat` (pandas `Series.diff`). -/

def PFloat.sub : PFloat → PFloat → PFloat
  | .rat a, .rat b => .rat (a - b)
  | .nan, _ => .nan
  | _, .nan => .nan
  | .inf, .inf => .nan
  | .ninf, .ninf => .nan
  | .inf, _ => .inf
  | .ninf, _ => .ninf
  | .rat _, .inf => .ninf
  | .rat _, .ninf => .inf

/-- IEEE-style division on `PFloat`: `x/0` is `±inf` for nonzero `x` and
`nan` for `x = 0`, exactly as numpy float division behaves. -/

def PFloat.div : PFloat → PFloat → PFloat
  | .nan, _ => .nan
  | _, .nan => .nan
  | .rat a, .rat b =>
      if b = 0 then (if a = 0 then .nan else if 0 < a then .inf else .ninf)
      else .rat (a / b)
  | .rat _, .inf => .rat 0
  | .rat _, .ninf => .rat 0
  | .inf, .rat b => if b < 0 then .ninf else .inf
  | .ninf, .rat b => if b < 0 then .inf else .ninf
  | .inf, .inf => .nan
  | .inf, .ninf => .nan
  | .ninf, .inf => .nan
  | .ninf, .ninf => .nan

/-- Multiplication of a `PFloat` by a rational scalar (pandas `Series * 100`). -/

def PFloat.mulRat : PFloat → ℚ → PFloat
  | .rat a, c => .rat (a * c)
  | .nan, _ => .nan
  | .inf, c => if c = 0 then .nan else if 0 < c then .inf else .ninf
  | .ninf, c => if c = 0 then .nan else if 0 < c then .ninf else .inf

/-- pandas `groupby(...).sum()` over a float column: NaN entries are skipped
(`skipna` semantics, `min_count=0`), the empty sum is `0`. -/

def pfSumSkipNa (l : List PFloat) : PFloat :=
  l.foldl (fun acc x => if x = PFloat.nan then acc else acc.add x) (.rat 0)

/-- Insert `x` into `l` before the first element whose key is not smaller:
the insertion step of a stable ascending insertion sort (the algorithm numpy
argsort applies below its small-array cutoff). -/

def insKey {α : Type} {κ : Type} [LinearOrder κ] (key : α → κ) (x : α) : List α → List α
  | [] => [x]
  | y :: ys => if key y < key x then y :: insKey key x ys else x :: y :: ys

/-- Stable ascending insertion sort by `key`; embeds `sort_values` (pandas
sorts ascending and, for `ascending=False`, reverses the resulting order). -/

def sortKey {α : Type} {κ : Type} [LinearOrder κ] (key : α → κ) : List α → List α
  | [] => []
  | x :: xs => insKey key x (sortKey key xs)

/-- `pandas.unique` / `Series.unique`: distinct values in first-appearance
order, written with a `seen` accumulator so it is structurally recursive. -/

def dedupFirstSeenAux (seen : List String) : List String → List String
  | [] => []
  | x :: xs =>
      if x ∈ seen then dedupFirstSeenAux seen xs
      else x :: dedupFirstSeenAux (seen ++ [x]) xs

def dedupFirstSeen (l : List String) : List String := dedupFirstSeenAux [] l

/-- Python `s.split('/')` on the character list: `""` splits to `[""]`,
separators at the ends produce empty fields. -/

def splitSlashChars : List Char → List String
  | [] => [""]
  | c :: cs =>
      if c = '/' then "" :: splitSlashChars cs
      else
        match splitSlashChars cs with
        | [] => [String.mk [c]]
        | t :: ts => String.mk (c :: t.data) :: ts

/-- `session_cts['dim_date'].str.split('/')` for one cell. -/

def splitSlash (s : String) : List String := splitSlashChars s.data

/-- Numeric value of a nonempty token of ASCII digits; `none` otherwise.
This is the digit field matched by `strptime`'s `%m` directive on the month
paths.  (CPython's digit pattern would also admit non-ASCII decimal digits;
those lie outside the ASCII alphabet this embedding models, see `pyInt`.) -/

def asciiDigitsToNat (s : String) : Option ℕ :=
  if s.data ≠ [] ∧ s.data.all Char.isDigit then
    some (s.data.foldl (fun acc c => 10 * acc + (c.toNat - '0'.toNat)) 0)
  else none

/-- The code points Python's `str.strip()` removes: the characters
`str.isspace()` accepts — ASCII 0x09–0x0D, 0x1C–0x1F and 0x20, plus the
Unicode whitespace code points. -/

def pySpaceChars : List ℕ :=
  [0x09, 0x0A, 0x0B, 0x0C, 0x0D, 0x1C, 0x1D, 0x1E, 0x1F, 0x20,
   0x85, 0xA0, 0x1680,
   0x2000, 0x2001, 0x2002, 0x2003, 0x2004, 0x2005, 0x2006, 0x2007,
   0x2008, 0x2009, 0x200A, 0x2028, 0x2029, 0x202F, 0x205F, 0x3000]

def isPySpace (c : Char) : Bool := c.toNat ∈ pySpaceChars

/-- Digit run with optional single underscores between digits, continuing a
number whose leading digits have value `acc` (Python's integer grammar
inside `int()`: underscores may separate digits but may not lead, trail, or
double up). -/

def pyDigitsTail : List Char → ℕ → Option ℕ
  | [], acc => some acc
  | '_' :: c :: cs, acc =>
      if c.isDigit then pyDigitsTail cs (10 * acc + (c.toNat - '0'.toNat)) else none
  | c :: cs, acc =>
      if c.isDigit then pyDigitsTail cs (10 * acc + (c.toNat - '0'.toNat)) else none

/-- A nonempty digit run (single underscores allowed between digits). -/

def pyIntDigits : List Char → Option ℕ
  | c :: cs => if c.isDigit then pyDigitsTail cs (c.toNat - '0'.toNat) else none
  | [] => none

/-- CPython `int(str)`, as invoked by `astype(int)` on the year column:
strip surrounding whitespace, then an optional sign followed by digits with
single underscores allowed between them.  Digits are modeled over the ASCII
alphabet; CPython additionally maps non-ASCII decimal digits, which is why
the error-characterization theorem below is stated for ASCII date strings. -/

def pyInt (s : String) : Option ℤ :=
  let t1 := s.data.dropWhile isPySpace
  let t := (t1.reverse.dropWhile isPySpace).reverse
  match t with
  | '+' :: cs => (pyIntDigits cs).map (fun n => (n : ℤ))
  | '-' :: cs => (pyIntDigits cs).map (fun n => -(n : ℤ))
  | cs => (pyIntDigits cs).map (fun n => (n : ℤ))

/-- `str.zfill(2)`: left-pad with `'0'` to length 2, inserting the zeros
after a leading sign character as Python does. -/

def zfill2 (s : String) : String :=
  if s.length ≥ 2 then s
  else
    match s.data with
    | c :: cs =>
        if c = '+' ∨ c = '-' then String.mk (c :: (List.replicate (2 - s.length) '0' ++ cs))
        else String.mk (List.replicate (2 - s.length) '0' ++ s.data)
    | [] => String.mk (List.replicate 2 '0')

/-- Python `str.title()`: uppercase every letter that follows a non-letter,
lowercase the rest (`dim_deviceCategory.str.title()`). -/

def titleCase (s : String) : String :=
  String.mk (s.data.foldl
    (fun acc c => ((if acc.2 then c.toLower else c.toUpper) :: acc.1, c.isAlpha))
    ([], false)).1.reverse

def monthNames : List String :=
  ["January", "February", "March", "April", "May", "June",
   "July", "August", "September", "October", "November", "December"]

/-- `map_month` from the source: `pd.to_datetime(tok, format='%m').strftime('%B')`.
`strptime`'s `%m` accepts a one- or two-digit numeral in 1..12 and raises on
anything else; the embedding returns `none` exactly on the raising inputs. -/

def map_month (tok : String) : Option String :=
  if tok.length = 0 ∨ tok.length > 2 then none
  else
    match asciiDigitsToNat tok with
    | none => none
    | some n => if 1 ≤ n ∧ n ≤ 12 then monthNames[n - 1]? else none

/-- One row of the raw session-counts table (already-parsed CSV input). -/

structure RawSessionRow where
  dim_date : String
  dim_deviceCategory : String
  dim_browser : String
  sessions : ℚ
  transactions : ℚ
  QTY : ℚ
deriving DecidableEq

/-- One row of the raw adds-to-cart table. -/

structure RawCartRow where
  dim_month : ℤ
  dim_year : ℤ
  addsToCart : ℚ
deriving DecidableEq

/-- A session row after `clean_tables`: the raw columns (device category
title-cased in place) plus the derived `Month`, `Year`, `month_name` columns. -/

structure SessionRow where
  dim_date : String
  dim_deviceCategory : String
  dim_browser : String
  sessions : ℚ
  transactions : ℚ
  QTY : ℚ
  Month : String
  Year : ℤ
  month_name : String
deriving DecidableEq

/-- A cart row after `clean_tables` (`dim_year` renamed to `Year`).
`month_name` is `none` when the month is absent from the session-derived
categorical domain — pandas stores NaN for a value outside the categories. -/

structure CartRow where
  dim_month : ℤ
  Year : ℤ
  addsToCart : ℚ
  month_name : Option String
deriving DecidableEq

/-- The error kind of the normalization step (unparseable date or month). -/

inductive MalformedDateError where
  | badDate (s : String)
  | badYear (s : String)
  | badMonth (s : String)
deriving DecidableEq

/-- A session table with its categorical month domain, mirroring a DataFrame
whose `month_name` column is `pd.Categorical(..., categories=monthCats)`. -/

structure SessionFrame where
  monthCats : List String
  rows : List SessionRow
deriving DecidableEq

/-- A cart table with its categorical month domain. -/

structure CartFrame where
  monthCats : List String
  rows : List CartRow
deriving DecidableEq

/-- `List.mapM` specialized to `Except`, written by structural recursion so
the kernel evaluates it: fails on the first failing element. -/

def mapExcept {α β ε : Type} (f : α → Except ε β) : List α → Except ε (List β)
  | [] => .ok []
  | x :: xs =>
      match f x with
      | .error e => .error e
      | .ok y =>
          match mapExcept f xs with
          | .error e => .error e
          | .ok ys => .ok (y :: ys)

/-- The per-row work of `clean_tables` on the session table: split the date,
expand the 2-digit year with a hard-coded `"20"` prefix, parse it as an
integer, map the month number to a month name, title-case the device. -/

def cleanSessionRow (r : RawSessionRow) : Except MalformedDateError SessionRow :=
  let parts := splitSlash r.dim_date
  if parts.length < 3 then .error (.badDate r.dim_date)
  else
    let mTok := parts.headD ""
    let yStr := "20" ++ zfill2 (parts.getD 2 "")
    match pyInt yStr with
    | none => .error (.badYear yStr)
    | some y =>
        match map_month mTok with
        | none => .error (.badMonth mTok)
        | some mn =>
            .ok { dim_date := r.dim_date,
                  dim_deviceCategory := titleCase r.dim_deviceCategory,
                  dim_browser := r.dim_browser,
                  sessions := r.sessions, transactions := r.transactions,
                  QTY := r.QTY,
                  Month := mTok, Year := y, month_name := mn }

/-- The month-name mapping of `clean_tables` on one cart row
(`cart_adds['dim_month'].astype(str)` then `map_month`). -/

def cleanCartMonth (c : RawCartRow) : Except MalformedDateError String :=
  match map_month (toString c.dim_month) with
  | some m => .ok m
  | none => .error (.badMonth (toString c.dim_month))

/-- `clean_tables`: normalize both tables, derive the month ordering from the
session table's first-seen month names (`unique()`), and constrain both
tables' `month_name` columns to that categorical domain.  A cart month
outside the domain becomes `none` (pandas: NaN). -/

def clean_tables (rawS : List RawSessionRow) (rawC : List RawCartRow) :
    Except MalformedDateError (SessionFrame × CartFrame) :=
  match mapExcept cleanSessionRow rawS with
  | .error e => .error e
  | .ok srows =>
      match mapExcept cleanCartMonth rawC with
      | .error e => .error e
      | .ok cmonths =>
          let cats := dedupFirstSeen (srows.map (fun r => r.month_name))
          let crows := (rawC.zip cmonths).map (fun p =>
            { dim_month := p.1.dim_month, Year := p.1.dim_year,
              addsToCart := p.1.addsToCart,
              month_name := if p.2 ∈ cats then some p.2 else none })
          .ok ({ monthCats := cats, rows := srows },
               { monthCats := cats, rows := crows })

/-- State of the caller's session table after `clean_tables` returns: the
function assigns into its argument (`session_cts['Month'] = ...`,
`.str.title()` written back), so the pre-existing `dim_deviceCategory`
column is title-cased in place (and derived columns are added). -/

def clean_tables_sessionInputAfter (rawS : List RawSessionRow) : List RawSessionRow :=
  rawS.map (fun r => { r with dim_deviceCategory := titleCase r.dim_deviceCategory })

/-- Failure predicate: the date string has fewer than the expected three
slash-delimited components (`.str[2]` then yields NaN and the year
expansion raises). -/

def dateShort (r : RawSessionRow) : Prop := (splitSlash r.dim_date).length < 3

/-- Failure predicate: the date's first component is not a one- or
two-digit numeral denoting a month in 1..12. -/

def monthTokBad (r : RawSessionRow) : Prop :=
  map_month ((splitSlash r.dim_date).headD "") = none

/-- Failure predicate: Python `int()` rejects the `"20"`-prefixed year
string, so `astype(int)` raises.  (`pyInt` tolerates surrounding whitespace
and single underscores between digits, exactly as CPython does on ASCII.) -/

def yearTokBad (r : RawSessionRow) : Prop :=
  pyInt ("20" ++ zfill2 ((splitSlash r.dim_date).getD 2 "")) = none

/-- A raw session row on which the normalization step fails. -/

def sessionRowBad (r : RawSessionRow) : Prop :=
  dateShort r ∨ monthTokBad r ∨ yearTokBad r

/-- A raw cart row on which the month mapping fails. -/

def cartRowBad (c : RawCartRow) : Prop := map_month (toString c.dim_month) = none

/-- The hard-coded month list assigned inside `create_month_device`
(`month_order = ['July', ..., 'June']`), replacing the data-derived
categories of the frame passed in. -/

def fixedMonthOrder : List String :=
  ["July", "August", "September", "October", "November", "December",
   "January", "February", "March", "April", "May", "June"]

/-- One row of the Month × Device aggregate (index levels flattened in). -/

structure MDRow where
  month_name : String
  dim_deviceCategory : String
  sessions : ℚ
  transactions : ℚ
  QTY : ℚ
  ECR : PFloat
deriving DecidableEq

/-- The Month × Device aggregate table together with the categorical domain
of its `month_name` index level. -/

structure MDFrame where
  monthCats : List String
  rows : List MDRow
deriving DecidableEq

/-- The observed device categories of a session frame, in the sorted order
`groupby(..., sort=True)` gives to a non-categorical grouping key. -/

def deviceCats (S : SessionFrame) : List String :=
  sortKey (fun s => s.toList) (dedupFirstSeen (S.rows.map (fun r => r.dim_deviceCategory)))

/-- `create_month_device`: re-categorize `month_name` with the hard-coded
July–June order (mutating the caller's frame, hence the returned pair's
second component), group by `(month_name, dim_deviceCategory)` and sum.
Grouping by a categorical key with pandas' `observed=False` default yields
one group per element of `categories × observed devices`, the empty ones
summing to 0; `ECR = transactions / sessions` columnwise. -/

def create_month_device (md : SessionFrame) : MDFrame × SessionFrame :=
  let devs := deviceCats md
  let rows := fixedMonthOrder.flatMap (fun m =>
    devs.map (fun d =>
      let grp := md.rows.filter
        (fun r => decide (r.month_name = m ∧ r.dim_deviceCategory = d))
      let s := (grp.map (fun r => r.sessions)).sum
      let t := (grp.map (fun r => r.transactions)).sum
      let q := (grp.map (fun r => r.QTY)).sum
      { month_name := m, dim_deviceCategory := d,
        sessions := s, transactions := t, QTY := q,
        ECR := PFloat.div (.rat t) (.rat s) }))
  ({ monthCats := fixedMonthOrder, rows := rows },
   { monthCats := fixedMonthOrder, rows := md.rows })

/-- One row of the browser aggregate. -/

structure BrowserRow where
  dim_browser : String
  sessions : ℚ
  transactions : ℚ
  QTY : ℚ
  ECR : PFloat
deriving DecidableEq

/-- `create_browser_device`: group by `dim_browser` (keys in sorted order),
sum the metrics, derive ECR. -/

def create_browser_device (md : SessionFrame) : List BrowserRow :=
  let brs := sortKey (fun s => s.toList) (dedupFirstSeen (md.rows.map (fun r => r.dim_browser)))
  brs.map (fun b =>
    let grp := md.rows.filter (fun r => decide (r.dim_browser = b))
    let s := (grp.map (fun r => r.sessions)).sum
    let t := (grp.map (fun r => r.transactions)).sum
    let q := (grp.map (fun r => r.QTY)).sum
    { dim_browser := b, sessions := s, transactions := t, QTY := q,
      ECR := PFloat.div (.rat t) (.rat s) })

/-- `browser.sort_values('sessions', ascending=False)`: pandas computes a
stable ascending argsort (numpy insertion sort below the small-array cutoff)
and reverses it for a descending sort, so rows with tied keys come out in
reverse of their pre-sort order. -/

def browser_sorted (md : SessionFrame) : List BrowserRow :=
  (sortKey (fun r => r.sessions) (create_browser_device md)).reverse

/-- The Top-20 browser report: descending sort then `[:20]`. -/

def browser_top20 (md : SessionFrame) : List BrowserRow :=
  (browser_sorted md).take 20

/-- `create_browser_device` only reads its argument (no assignment into `md`
anywhere in its body), so the caller's frame is unchanged. -/

def create_browser_device_inputAfter (md : SessionFrame) : SessionFrame := md

/-- `filter_last_months`: sort by `(Year, month_name)` — the categorical
month sorts by its position in the category list, the two keys combine
lexicographically (encoded below into a single integer key, the month index
being at most `monthCats.length`) — then keep the rows of the last 3 month
names of the sorted column's first-appearance `unique()` order. -/

def filter_last_months (df : SessionFrame) : SessionFrame :=
  let sorted := sortKey
    (fun r => r.Year * ((df.monthCats.length : ℤ) + 1) + (df.monthCats.indexOf r.month_name : ℤ))
    df.rows
  let uniq := dedupFirstSeen (sorted.map (fun r => r.month_name))
  let lastMonths := uniq.drop (uniq.length - 3)
  { monthCats := df.monthCats,
    rows := sorted.filter (fun r => decide (r.month_name ∈ lastMonths)) }

/-- A row of the month-grouped trend aggregate (pre-merge). -/

structure LeftRow where
  month_name : String
  sessions : ℚ
  transactions : ℚ
  QTY : ℚ
  ECR : PFloat
deriving DecidableEq

/-- The trend aggregation: group the filtered subset by the categorical
`month_name` (one group per category, pandas `observed=False`), sum, derive
ECR. -/

def mtm_grouped (S : SessionFrame) : List LeftRow :=
  let filtered := (filter_last_months S).rows
  S.monthCats.map (fun m =>
    let grp := filtered.filter (fun r => decide (r.month_name = m))
    let s := (grp.map (fun r => r.sessions)).sum
    let t := (grp.map (fun r => r.transactions)).sum
    let q := (grp.map (fun r => r.QTY)).sum
    { month_name := m, sessions := s, transactions := t, QTY := q,
      ECR := PFloat.div (.rat t) (.rat s) })

/-- `fillna(0)` on a float cell. -/

def fillna0 (e : PFloat) : PFloat := if e = PFloat.nan then .rat 0 else e

/-- `fillna(0)` then `df.loc[(df != 0).all(axis=1)]`: drop every row holding
a zero anywhere (the integer sums are never NaN; only ECR can be). -/

def mtm_filtered (S : SessionFrame) : List LeftRow :=
  ((mtm_grouped S).map (fun r => { r with ECR := fillna0 r.ECR })).filter
    (fun r => decide (r.sessions ≠ 0 ∧ r.transactions ≠ 0 ∧ r.QTY ≠ 0 ∧ r.ECR ≠ PFloat.rat 0))

/-- A row of the trend table after the inner merge with the cart table. -/

structure MergedRow where
  month_name : String
  sessions : ℚ
  transactions : ℚ
  QTY : ℚ
  ECR : PFloat
  addsToCart : ℚ
deriving DecidableEq

/-- `merge(adds[['month_name', 'addsToCart']], on=['month_name'],
how='inner')`: for each left row in order, one output row per matching cart
row; a cart row whose `month_name` is NaN (`none`) matches nothing on the
left since every left key is an actual category label. -/

def mtm_merged (S : SessionFrame) (C : CartFrame) : List MergedRow :=
  (mtm_filtered S).flatMap (fun l =>
    (C.rows.filter (fun c => decide (c.month_name = some l.month_name))).map (fun c =>
      { month_name := l.month_name, sessions := l.sessions,
        transactions := l.transactions, QTY := l.QTY, ECR := l.ECR,
        addsToCart := c.addsToCart }))

/-- A row of the month-to-month comparison before the final transpose:
each metric value plus its `diff()` and `pct_change() * 100` columns. -/

structure MTMRow where
  month_name : String
  sessions : ℚ
  sessions_abs_change : PFloat
  sessions_pct_change : PFloat
  addsToCart : ℚ
  addsToCart_abs_change : PFloat
  addsToCart_pct_change : PFloat
  transactions : ℚ
  transactions_abs_change : PFloat
  transactions_pct_change : PFloat
  QTY : ℚ
  QTY_abs_change : PFloat
  QTY_pct_change : PFloat
  ECR : PFloat
  ECR_abs_change : PFloat
  ECR_pct_change : PFloat
deriving DecidableEq

/-- pandas `Series.pct_change()` is `s / s.shift(1) - 1`. -/

def pctChange (cur prev : PFloat) : PFloat :=
  ((cur.div prev).sub (.rat 1)).mulRat 100

/-- `Series.diff()` for one cell of a rational-valued column: NaN when the
row has no predecessor. -/

def diffCellQ (prev? : Option MergedRow) (get : MergedRow → ℚ) (cur : MergedRow) : PFloat :=
  match prev? with
  | none => .nan
  | some p => PFloat.sub (.rat (get cur)) (.rat (get p))

/-- `Series.pct_change() * 100` for one cell of a rational-valued column. -/

def pctCellQ (prev? : Option MergedRow) (get : MergedRow → ℚ) (cur : MergedRow) : PFloat :=
  match prev? with
  | none => .nan
  | some p => pctChange (.rat (get cur)) (.rat (get p))

/-- Build one comparison row from the current merged row and its
predecessor (`none` for the first row: `diff`/`pct_change` give NaN there). -/

def mkMTMRow (prev? : Option MergedRow) (cur : MergedRow) : MTMRow :=
  { month_name := cur.month_name,
    sessions := cur.sessions,
    sessions_abs_change := diffCellQ prev? (fun x => x.sessions) cur,
    sessions_pct_change := pctCellQ prev? (fun x => x.sessions) cur,
    addsToCart := cur.addsToCart,
    addsToCart_abs_change := diffCellQ prev? (fun x => x.addsToCart) cur,
    addsToCart_pct_change := pctCellQ prev? (fun x => x.addsToCart) cur,
    transactions := cur.transactions,
    transactions_abs_change := diffCellQ prev? (fun x => x.transactions) cur,
    transactions_pct_change := pctCellQ prev? (fun x => x.transactions) cur,
    QTY := cur.QTY,
    QTY_abs_change := diffCellQ prev? (fun x => x.QTY) cur,
    QTY_pct_change := pctCellQ prev? (fun x => x.QTY) cur,
    ECR := cur.ECR,
    ECR_abs_change := match prev? with | none => .nan | some p => cur.ECR.sub p.ECR,
    ECR_pct_change := match prev? with | none => .nan | some p => pctChange cur.ECR p.ECR }

/-- Walk the merged rows computing each row's deltas from its predecessor. -/

def deltaRows : Option MergedRow → List MergedRow → List MTMRow
  | _, [] => []
  | prev?, c :: rest => mkMTMRow prev? c :: deltaRows (some c) rest

/-- `create_mtm_compare`: filter to the trailing month window, aggregate by
month, drop empty/zero rows, inner-merge with the cart table, compute
absolute and percent deltas.  (The source then reorders the columns into the
fixed metric layout already reflected in `MTMRow` and transposes the frame
for display; the transpose is a presentational reshape of the same cells.) -/

def create_mtm_compare (S : SessionFrame) (C : CartFrame) : List MTMRow :=
  deltaRows none (mtm_merged S C)

/-- `create_mtm_compare` never assigns into its arguments; its only
`inplace` call (`fillna`) acts on the derived local frame. -/

def create_mtm_compare_inputAfter (S : SessionFrame) (C : CartFrame) :
    SessionFrame × CartFrame := (S, C)

/-- The fixed device-category order imposed by `create_month_device_totals`. -/

def totalsCategoryOrder : List String := ["Desktop", "Mobile", "Tablet", "Total"]

/-- A row of the "Month Aggs with Total" report.  `dim_deviceCategory` is
`none` when the device is outside the fixed category list (pandas turns such
values into NaN when re-categorizing). -/

structure TotRow where
  month_name : String
  dim_deviceCategory : Option String
  sessions : ℚ
  transactions : ℚ
  QTY : ℚ
  ECR : PFloat
deriving DecidableEq

/-- The synthetic per-month totals of `create_month_device_totals`:
`month_device.groupby('month_name').sum()` (one group per category, pandas
skipna sums — the ECR column is summed like every other numeric column),
tagged with `dim_deviceCategory = 'Total'`. -/

def month_device_totals_totalsRows (md : MDFrame) : List TotRow :=
  md.monthCats.map (fun m =>
    let grp := md.rows.filter (fun r => decide (r.month_name = m))
    { month_name := m, dim_deviceCategory := some "Total",
      sessions := (grp.map (fun r => r.sessions)).sum,
      transactions := (grp.map (fun r => r.transactions)).sum,
      QTY := (grp.map (fun r => r.QTY)).sum,
      ECR := pfSumSkipNa (grp.map (fun r => r.ECR)) })

/-- Sort position of a device in the fixed category order (NaN last). -/

def totCatIdx : Option String → ℕ
  | some d => totalsCategoryOrder.indexOf d
  | none => totalsCategoryOrder.length

/-- `create_month_device_totals`: append the synthetic Total rows, constrain
`dim_deviceCategory` to the fixed `{Desktop, Mobile, Tablet, Total}` order,
and sort by `(month_name, dim_deviceCategory)` (lexicographic key encoded
into one natural number; `sort_values` with several keys is a stable
lexsort). -/

def create_month_device_totals (md : MDFrame) : List TotRow :=
  let original : List TotRow := md.rows.map (fun r =>
    { month_name := r.month_name,
      dim_deviceCategory :=
        if r.dim_deviceCategory ∈ totalsCategoryOrder then some r.dim_deviceCategory else none,
      sessions := r.sessions, transactions := r.transactions,
      QTY := r.QTY, ECR := r.ECR })
  let both := original ++ month_device_totals_totalsRows md
  sortKey
    (fun r => (md.monthCats.indexOf r.month_name) * (totalsCategoryOrder.length + 1)
      + totCatIdx r.dim_deviceCategory)
    both

/-- `create_month_device_totals` rebinds its parameter to `reset_index()`'s
fresh frame and mutates only local frames; the caller's table is unchanged. -/

def create_month_device_totals_inputAfter (md : MDFrame) : MDFrame := md

/-- The full pipeline of `generate_excel` downstream of CSV parsing: clean
both tables, build the four reports.  `create_month_device` mutates the
session frame's month categories, and the later reports are computed from
the mutated frame, exactly as in the source. -/

def pipeline (rawS : List RawSessionRow) (rawC : List RawCartRow) :
    Except MalformedDateError (MDFrame × List BrowserRow × List MTMRow × List TotRow) :=
  match clean_tables rawS rawC with
  | .error e => .error e
  | .ok (sc, adds) =>
      let step := create_month_device sc
      let month_device_agg := step.1
      let sc2 := step.2
      let browser := browser_top20 sc2
      let mtm_compare := create_mtm_compare sc2 adds
      let month_device_with_totals := create_month_device_totals month_device_agg
      .ok (month_device_agg, browser, mtm_compare, month_device_with_totals)

/-- Case description of the columnwise float division
`transactions / sessions`: the exact ratio off the zero-session case, and
the IEEE special values on it — never an exception. -/

def ECRok (t s : ℚ) (e : PFloat) : Prop :=
  e = PFloat.div (.rat t) (.rat s)
  ∧ (s ≠ 0 → e = .rat (t / s))
  ∧ (s = 0 → t = 0 → e = .nan)
  ∧ (s = 0 → 0 < t → e = .inf)
  ∧ (s = 0 → t < 0 → e = .ninf)

/-- The first row of the comparison has every delta field undefined. -/

def mtmFirstRowUndefined (r : MTMRow) : Prop :=
  r.sessions_abs_change = .nan ∧ r.sessions_pct_change = .nan
  ∧ r.addsToCart_abs_change = .nan ∧ r.addsToCart_pct_change = .nan
  ∧ r.transactions_abs_change = .nan ∧ r.transactions_pct_change = .nan
  ∧ r.QTY_abs_change = .nan ∧ r.QTY_pct_change = .nan
  ∧ r.ECR_abs_change = .nan ∧ r.ECR_pct_change = .nan

/-- Relation between a comparison row and its predecessor: each absolute
change is the metric's value minus the previous value, each percent change
is `(value - previous) / previous * 100` (in `PFloat` arithmetic, so the
sign carries through and a zero predecessor propagates `±inf`/`nan`). -/

def mtmDeltaOk (p r : MTMRow) : Prop :=
  r.sessions_abs_change = PFloat.sub (.rat r.sessions) (.rat p.sessions)
  ∧ r.sessions_pct_change
      = ((PFloat.sub (.rat r.sessions) (.rat p.sessions)).div (.rat p.sessions)).mulRat 100
  ∧ r.addsToCart_abs_change = PFloat.sub (.rat r.addsToCart) (.rat p.addsToCart)
  ∧ r.addsToCart_pct_change
      = ((PFloat.sub (.rat r.addsToCart) (.rat p.addsToCart)).div (.rat p.addsToCart)).mulRat 100
  ∧ r.transactions_abs_change = PFloat.sub (.rat r.transactions) (.rat p.transactions)
  ∧ r.transactions_pct_change
      = ((PFloat.sub (.rat r.transactions) (.rat p.transactions)).div (.rat p.transactions)).mulRat 100
  ∧ r.QTY_abs_change = PFloat.sub (.rat r.QTY) (.rat p.QTY)
  ∧ r.QTY_pct_change = ((PFloat.sub (.rat r.QTY) (.rat p.QTY)).div (.rat p.QTY)).mulRat 100
  ∧ r.ECR_abs_change = r.ECR.sub p.ECR
  ∧ r.ECR_pct_change = ((r.ECR.sub p.ECR).div p.ECR).mulRat 100

/-- The rows of the Month × Device aggregate that belong to one month. -/
def mdMonthRows (S : SessionFrame) (m : String) : List MDRow :=
  (create_month_device S).1.rows.filter (fun r => decide (r.month_name = m))

/-- The synthetic Total rows of the Totals Augmenter that belong to one month. -/
def totalsFor (S : SessionFrame) (m : String) : List TotRow :=
  (month_device_totals_totalsRows (create_month_device S).1).filter
    (fun r => decide (r.month_name = m))

/-- Shorthand for building a concrete normalized session row. -/
def exRow (m : String) (y : ℤ) (dev br : String) (s t q : ℚ) : SessionRow :=
  { dim_date := "", dim_deviceCategory := dev, dim_browser := br,
    sessions := s, transactions := t, QTY := q, Month := "", Year := y, month_name := m }

/-- Normalized frame: one July Desktop row, one August Mobile row. -/
def exC1S : SessionFrame :=
  { monthCats := ["July", "August"],
    rows := [exRow "July" 2012 "Desktop" "Chrome" 100 10 5,
             exRow "August" 2012 "Mobile" "Safari" 150 30 10] }

/-- Raw tables whose cart side has a March row absent from the session side. -/
def exC2rawS : List RawSessionRow :=
  [{ dim_date := "7/1/12", dim_deviceCategory := "desktop", dim_browser := "Chrome",
     sessions := 100, transactions := 10, QTY := 5 },
   { dim_date := "8/1/12", dim_deviceCategory := "mobile", dim_browser := "Safari",
     sessions := 150, transactions := 30, QTY := 10 }]

def exC2rawC : List RawCartRow :=
  [{ dim_month := 7, dim_year := 2012, addsToCart := 50 },
   { dim_month := 8, dim_year := 2012, addsToCart := 60 },
   { dim_month := 3, dim_year := 2013, addsToCart := 9 }]

/-- The session frame `clean_tables` produces from `exC2rawS`. -/
def exC2S : SessionFrame :=
  { monthCats := ["July", "August"],
    rows := [{ dim_date := "7/1/12", dim_deviceCategory := "Desktop", dim_browser := "Chrome",
               sessions := 100, transactions := 10, QTY := 5,
               Month := "7", Year := 2012, month_name := "July" },
             { dim_date := "8/1/12", dim_deviceCategory := "Mobile", dim_browser := "Safari",
               sessions := 150, transactions := 30, QTY := 10,
               Month := "8", Year := 2012, month_name := "August" }] }

/-- The cart frame `clean_tables` produces from `exC2rawC`: the March row's
month is outside the session-derived domain, hence `none`. -/
def exC2C : CartFrame :=
  { monthCats := ["July", "August"],
    rows := [{ dim_month := 7, Year := 2012, addsToCart := 50, month_name := some "July" },
             { dim_month := 8, Year := 2012, addsToCart := 60, month_name := some "August" },
             { dim_month := 3, Year := 2013, addsToCart := 9, month_name := none }] }

/-- Frame with one ordinary July Desktop row. -/
def exC3S : SessionFrame :=
  { monthCats := ["July"], rows := [exRow "July" 2012 "Desktop" "Chrome" 100 10 5] }

/-- The July/Desktop aggregate row produced from `exC3S`. -/
def exC3row : MDRow :=
  { month_name := "July", dim_deviceCategory := "Desktop",
    sessions := 100, transactions := 10, QTY := 5, ECR := .rat (1 / 10) }

/-- Frame holding a row with zero sessions but a positive transaction count. -/
def exC3bS : SessionFrame :=
  { monthCats := ["July"], rows := [exRow "July" 2012 "Desktop" "Chrome" 0 1 1] }

/-- The July/Desktop aggregate row produced from `exC3bS`: ECR is `inf`. -/
def exC3brow : MDRow :=
  { month_name := "July", dim_deviceCategory := "Desktop",
    sessions := 0, transactions := 1, QTY := 1, ECR := .inf }

/-- Frame whose (title-cased) device categories include the literal "Total". -/
def exC5S : SessionFrame :=
  { monthCats := ["July"],
    rows := [exRow "July" 2012 "Total" "Chrome" 2 0 0,
             exRow "July" 2012 "Desktop" "Chrome" 1 0 0] }

/-- Ordinary single-device frame for the Totals Augmenter. -/
def exC5wS : SessionFrame :=
  { monthCats := ["July"], rows := [exRow "July" 2012 "Desktop" "Chrome" 100 10 5] }

/-- Frame with two devices in one month (ECRs 1/10 and 1/5). -/
def exC6S : SessionFrame :=
  { monthCats := ["July"],
    rows := [exRow "July" 2012 "Desktop" "Chrome" 100 10 5,
             exRow "July" 2012 "Mobile" "Safari" 150 30 10] }

/-- Two-month session frame for the trend comparison. -/
def exC7S : SessionFrame :=
  { monthCats := ["July", "August"],
    rows := [exRow "July" 2012 "Desktop" "Chrome" 100 10 5,
             exRow "August" 2012 "Desktop" "Chrome" 150 30 10] }

/-- Matching cart frame for the trend comparison. -/
def exC7C : CartFrame :=
  { monthCats := ["July", "August"],
    rows := [{ dim_month := 7, Year := 2012, addsToCart := 50, month_name := some "July" },
             { dim_month := 8, Year := 2012, addsToCart := 60, month_name := some "August" }] }

/-- The first row of the comparison built from `exC7S`/`exC7C`. -/
def exC7row0 : MTMRow :=
  { month_name := "July",
    sessions := 100, sessions_abs_change := .nan, sessions_pct_change := .nan,
    addsToCart := 50, addsToCart_abs_change := .nan, addsToCart_pct_change := .nan,
    transactions := 10, transactions_abs_change := .nan, transactions_pct_change := .nan,
    QTY := 5, QTY_abs_change := .nan, QTY_pct_change := .nan,
    ECR := .rat (1 / 10), ECR_abs_change := .nan, ECR_pct_change := .nan }

/-- A raw session row with a lowercase device category. -/
def exC8raw : RawSessionRow :=
  { dim_date := "7/1/12", dim_deviceCategory := "desktop", dim_browser := "Chrome",
    sessions := 100, transactions := 10, QTY := 5 }

/-- A normalized frame whose month categories differ from the hard-coded list. -/
def exC8S : SessionFrame :=
  { monthCats := ["July"], rows := [exRow "July" 2012 "Desktop" "Chrome" 1 1 1] }

/-- A raw session row whose date has three components, a valid month token,
and a non-numeric year token. -/
def exC9raw : RawSessionRow :=
  { dim_date := "1/2/xx", dim_deviceCategory := "desktop", dim_browser := "Chrome",
    sessions := 1, transactions := 1, QTY := 1 }

/-- A raw session row whose year token carries a trailing space, which
Python's `int()` strips: normalization succeeds on it with Year 2012. -/
def exC9okraw : RawSessionRow :=
  { dim_date := "1/2/12 ", dim_deviceCategory := "desktop", dim_browser := "Chrome",
    sessions := 1, transactions := 1, QTY := 1 }

/-- Raw inputs for the determinism round-trip. -/
def exC10rawS : List RawSessionRow :=
  [{ dim_date := "7/1/12", dim_deviceCategory := "desktop", dim_browser := "Chrome",
     sessions := 100, transactions := 10, QTY := 5 }]

def exC10rawC : List RawCartRow :=
  [{ dim_month := 7, dim_year := 2012, addsToCart := 50 }]


theorem mem_insKey {α κ : Type} [LinearOrder κ] (key : α → κ) (x a : α) (l : List α) :
    a ∈ insKey key x l ↔ a = x ∨ a ∈ l := by
  induction l with
  | nil => simp [insKey]
  | cons y ys ih =>
      by_cases h : key y < key x
      · simp only [insKey, if_pos h, List.mem_cons, ih]
        tauto
      · simp only [insKey, if_neg h, List.mem_cons]

theorem insKey_perm {α κ : Type} [LinearOrder κ] (key : α → κ) (x : α) (l : List α) :
    (insKey key x l).Perm (x :: l) := by
  induction l with
  | nil => simp [insKey]
  | cons y ys ih =>
      by_cases h : key y < key x
      · simp only [insKey, if_pos h]
        exact ((ih.cons y).trans (List.Perm.swap x y ys))
      · simp [insKey, if_neg h]

theorem sortKey_perm {α κ : Type} [LinearOrder κ] (key : α → κ) (l : List α) :
    (sortKey key l).Perm l := by
  induction l with
  | nil => simp [sortKey]
  | cons x xs ih =>
      exact (insKey_perm key x (sortKey key xs)).trans (ih.cons x)

theorem pairwise_insKey {α κ : Type} [LinearOrder κ] (key : α → κ) (x : α) (l : List α)
    (h : l.Pairwise (fun a b => key a ≤ key b)) :
    (insKey key x l).Pairwise (fun a b => key a ≤ key b) := by
  induction l with
  | nil => simp [insKey]
  | cons y ys ih =>
      rcases List.pairwise_cons.mp h with ⟨hy, hys⟩
      by_cases hlt : key y < key x
      · rw [insKey, if_pos hlt]
        refine List.pairwise_cons.mpr ⟨?_, ih hys⟩
        intro a ha
        rcases (mem_insKey key x a ys).mp ha with rfl | ha
        · exact le_of_lt hlt
        · exact hy a ha
      · rw [insKey, if_neg hlt]
        refine List.pairwise_cons.mpr ⟨?_, h⟩
        intro a ha
        rcases List.mem_cons.mp ha with rfl | ha
        · exact le_of_not_lt hlt
        · exact le_trans (le_of_not_lt hlt) (hy a ha)

theorem pairwise_sortKey {α κ : Type} [LinearOrder κ] (key : α → κ) (l : List α) :
    (sortKey key l).Pairwise (fun a b => key a ≤ key b) := by
  induction l with
  | nil => simp [sortKey]
  | cons x xs ih => exact pairwise_insKey key x (sortKey key xs) ih

theorem mem_dedupFirstSeenAux (seen l : List String) (a : String) :
    a ∈ dedupFirstSeenAux seen l ↔ a ∈ l ∧ a ∉ seen := by
  induction l generalizing seen with
  | nil => simp [dedupFirstSeenAux]
  | cons x xs ih =>
      by_cases hx : x ∈ seen
      · rw [dedupFirstSeenAux, if_pos hx, ih]
        constructor
        · rintro ⟨h1, h2⟩
          exact ⟨List.mem_cons_of_mem x h1, h2⟩
        · rintro ⟨h1, h2⟩
          rcases List.mem_cons.mp h1 with rfl | h1
          · exact absurd hx h2
          · exact ⟨h1, h2⟩
      · rw [dedupFirstSeenAux, if_neg hx]
        constructor
        · intro h
          rcases List.mem_cons.mp h with rfl | h
          · exact ⟨List.mem_cons_self a xs, hx⟩
          · rcases (ih (seen ++ [x])).mp h with ⟨h1, h2⟩
            refine ⟨List.mem_cons_of_mem x h1, fun hc => h2 ?_⟩
            exact List.mem_append.mpr (Or.inl hc)
        · rintro ⟨h1, h2⟩
          rcases List.mem_cons.mp h1 with rfl | h1
          · exact List.mem_cons_self a _
          · by_cases hax : a = x
            · subst hax
              exact List.mem_cons_self a _
            · refine List.mem_cons_of_mem x ((ih (seen ++ [x])).mpr ⟨h1, fun hc => ?_⟩)
              rcases List.mem_append.mp hc with hc | hc
              · exact h2 hc
              · exact hax (List.mem_singleton.mp hc)

theorem mem_dedupFirstSeen (l : List String) (a : String) :
    a ∈ dedupFirstSeen l ↔ a ∈ l := by
  simp [dedupFirstSeen, mem_dedupFirstSeenAux]

theorem nodup_dedupFirstSeenAux (seen l : List String) :
    (dedupFirstSeenAux seen l).Nodup := by
  induction l generalizing seen with
  | nil => simp [dedupFirstSeenAux]
  | cons x xs ih =>
      by_cases hx : x ∈ seen
      · rw [dedupFirstSeenAux, if_pos hx]
        exact ih seen
      · rw [dedupFirstSeenAux, if_neg hx]
        refine List.nodup_cons.mpr ⟨?_, ih (seen ++ [x])⟩
        intro hc
        have := (mem_dedupFirstSeenAux (seen ++ [x]) xs x).mp hc
        exact this.2 (by simp)

theorem nodup_dedupFirstSeen (l : List String) : (dedupFirstSeen l).Nodup :=
  nodup_dedupFirstSeenAux [] l

theorem ECRok_div (t s : ℚ) : ECRok t s (PFloat.div (.rat t) (.rat s)) := by
  refine ⟨rfl, ?_, ?_, ?_, ?_⟩
  · intro hs
    simp [PFloat.div, hs]
  · intro hs ht
    simp [PFloat.div, hs, ht]
  · intro hs ht
    simp [PFloat.div, hs, ht, ne_of_gt ht]
  · intro hs ht
    simp [PFloat.div, hs, ht, ne_of_lt ht, not_lt_of_lt ht]

theorem pctChange_rat_eq (a b : ℚ) :
    pctChange (.rat a) (.rat b)
      = ((PFloat.sub (.rat a) (.rat b)).div (.rat b)).mulRat 100 := by
  by_cases hb : b = 0
  · subst hb
    rcases lt_trichotomy a 0 with ha | ha | ha
    · simp [pctChange, PFloat.div, PFloat.sub, PFloat.mulRat, ha, ne_of_lt ha, not_lt_of_lt ha]
    · subst ha
      simp [pctChange, PFloat.div, PFloat.sub, PFloat.mulRat]
    · simp [pctChange, PFloat.div, PFloat.sub, PFloat.mulRat, ha, ne_of_gt ha]
  · have key : (a / b - 1) * 100 = (a - b) / b * 100 := by
      field_simp
    simp [pctChange, PFloat.div, PFloat.sub, PFloat.mulRat, hb, key]

theorem mem_create_month_device_ECR (S : SessionFrame) (r : MDRow)
    (h : r ∈ (create_month_device S).1.rows) :
    r.ECR = PFloat.div (.rat r.transactions) (.rat r.sessions) := by
  simp only [create_month_device] at h
  rcases List.mem_flatMap.mp h with ⟨m, _, hr⟩
  rcases List.mem_map.mp hr with ⟨d, _, rfl⟩
  rfl

theorem mem_create_browser_device_ECR (S : SessionFrame) (r : BrowserRow)
    (h : r ∈ create_browser_device S) :
    r.ECR = PFloat.div (.rat r.transactions) (.rat r.sessions) := by
  simp only [create_browser_device] at h
  rcases List.mem_map.mp h with ⟨b, _, rfl⟩
  rfl

theorem mem_mtm_grouped_ECR (S : SessionFrame) (r : LeftRow)
    (h : r ∈ mtm_grouped S) :
    r.ECR = PFloat.div (.rat r.transactions) (.rat r.sessions) := by
  simp only [mtm_grouped] at h
  rcases List.mem_map.mp h with ⟨m, _, rfl⟩
  rfl

theorem mem_mtm_merged_ECR_rat (S : SessionFrame) (C : CartFrame) (x : MergedRow)
    (h : x ∈ mtm_merged S C) : ∃ q, x.ECR = PFloat.rat q := by
  simp only [mtm_merged] at h
  rcases List.mem_flatMap.mp h with ⟨l, hl, hx⟩
  rcases List.mem_map.mp hx with ⟨c, _, rfl⟩
  rcases List.mem_filter.mp hl with ⟨hl2, hcond⟩
  rcases List.mem_map.mp hl2 with ⟨g, hg, rfl⟩
  have hcond2 := of_decide_eq_true hcond
  have hs : g.sessions ≠ 0 := hcond2.1
  have hgE := mem_mtm_grouped_ECR S g hg
  refine ⟨g.transactions / g.sessions, ?_⟩
  simp [hgE, PFloat.div, hs, fillna0]

theorem map_month_deltaRows (p? : Option MergedRow) (ms : List MergedRow) :
    (deltaRows p? ms).map (fun r => r.month_name) = ms.map (fun x => x.month_name) := by
  induction ms generalizing p? with
  | nil => simp [deltaRows]
  | cons c rest ih =>
      rw [deltaRows, List.map_cons, List.map_cons, ih]
      rfl

theorem chain_deltaRows (ms : List MergedRow)
    (h : ∀ x ∈ ms, ∃ q, x.ECR = PFloat.rat q) :
    ∀ p?, (deltaRows p? ms).Chain' mtmDeltaOk := by
  induction ms with
  | nil =>
      intro p?
      simp [deltaRows]
  | cons c rest ih =>
      intro p?
      rw [deltaRows]
      refine List.chain'_cons'.mpr ⟨?_, ?_⟩
      · intro b hb
        rcases rest with _ | ⟨c2, rest2⟩
        · simp [deltaRows] at hb
        · rw [deltaRows] at hb
          simp only [List.head?_cons, Option.mem_def, Option.some.injEq] at hb
          subst hb
          rcases h c (by simp) with ⟨q1, hq1⟩
          rcases h c2 (by simp [List.mem_cons]) with ⟨q2, hq2⟩
          refine ⟨rfl, ?_, rfl, ?_, rfl, ?_, rfl, ?_, rfl, ?_⟩
          · exact pctChange_rat_eq c2.sessions c.sessions
          · exact pctChange_rat_eq c2.addsToCart c.addsToCart
          · exact pctChange_rat_eq c2.transactions c.transactions
          · exact pctChange_rat_eq c2.QTY c.QTY
          · show pctChange c2.ECR c.ECR = ((c2.ECR.sub c.ECR).div c.ECR).mulRat 100
            rw [hq1, hq2]
            exact pctChange_rat_eq q2 q1
      · exact ih (fun x hx => h x (List.mem_cons_of_mem c hx)) (some c)

theorem filter_map_nodup {β : Type} (f : String → β) (name : β → String)
    (hf : ∀ x, name (f x) = x) :
    ∀ cats : List String, cats.Nodup → ∀ m ∈ cats,
      (cats.map f).filter (fun r => decide (name r = m)) = [f m] := by
  intro cats
  induction cats with
  | nil => simp
  | cons x xs ih =>
      intro hnd m hm
      rcases List.nodup_cons.mp hnd with ⟨hx, hxs⟩
      rw [List.map_cons, List.filter_cons]
      rcases List.mem_cons.mp hm with rfl | hm2
      · have hrest : (xs.map f).filter (fun r => decide (name r = m)) = [] := by
          refine List.filter_eq_nil_iff.mpr ?_
          intro b hb
          rcases List.mem_map.mp hb with ⟨x', hx', rfl⟩
          simp only [hf x', decide_eq_true_eq]
          intro heq
          exact hx (heq ▸ hx')
        simp [hf, hrest]
      · have hne : ¬ name (f x) = m := by
          rw [hf]
          intro heq
          exact hx (heq ▸ hm2)
        simp only [decide_eq_false hne, Bool.false_eq_true, if_false]
        exact ih hxs m hm2

theorem toList_inj {s t : String} (h : s.toList = t.toList) : s = t := by
  cases s
  cases t
  exact congrArg String.mk (by simpa [String.toList] using h)

theorem deviceCats_sorted_lt (S : SessionFrame) :
    (deviceCats S).Pairwise (fun a b => a < b) := by
  have h1 : (deviceCats S).Pairwise (fun a b => a.toList ≤ b.toList) := by
    rw [deviceCats]
    exact pairwise_sortKey (fun s : String => s.toList) _
  have h2 : (deviceCats S).Nodup := by
    rw [deviceCats]
    exact ((sortKey_perm (fun s : String => s.toList)
      (dedupFirstSeen (S.rows.map (fun r => r.dim_deviceCategory)))).nodup_iff).mpr
      (nodup_dedupFirstSeen _)
  refine (h1.and h2).imp ?_
  rintro a b ⟨hle, hne⟩
  refine String.lt_iff_toList_lt.mpr (lt_of_le_of_ne hle ?_)
  intro hc
  exact hne (toList_inj hc)

theorem mem_deviceCats (S : SessionFrame) (d : String) :
    d ∈ deviceCats S ↔ ∃ r ∈ S.rows, r.dim_deviceCategory = d := by
  rw [deviceCats,
    (sortKey_perm (fun s : String => s.toList)
      (dedupFirstSeen (S.rows.map (fun r => r.dim_deviceCategory)))).mem_iff,
    mem_dedupFirstSeen, List.mem_map]

theorem cleanCartMonth_error_iff (c : RawCartRow) :
    (∃ e, cleanCartMonth c = .error e) ↔ cartRowBad c := by
  rw [cleanCartMonth, cartRowBad]
  rcases h : map_month (toString c.dim_month) with _ | m <;> simp

theorem cleanSessionRow_error_iff (r : RawSessionRow) :
    (∃ e, cleanSessionRow r = .error e) ↔ sessionRowBad r := by
  rw [cleanSessionRow, sessionRowBad, dateShort, monthTokBad, yearTokBad]
  by_cases h1 : (splitSlash r.dim_date).length < 3
  · simp [h1]
  · simp only [h1, if_false, false_or]
    rcases h2 : pyInt ("20" ++ zfill2 ((splitSlash r.dim_date).getD 2 "")) with _ | y
    · simp [h2]
    · rcases h3 : map_month ((splitSlash r.dim_date).headD "") with _ | mn <;>
        simp [h2, h3]

theorem mapExcept_error_iff {α β ε : Type} (f : α → Except ε β) (l : List α) :
    (∃ e, mapExcept f l = .error e) ↔ ∃ x ∈ l, ∃ e, f x = .error e := by
  induction l with
  | nil => simp [mapExcept]
  | cons x xs ih =>
      rcases hfx : f x with e | y
      · simp only [mapExcept, hfx, List.mem_cons]
        constructor
        · intro _
          exact ⟨x, Or.inl rfl, e, hfx⟩
        · intro _
          exact ⟨e, rfl⟩
      · rcases hm : mapExcept f xs with e | ys
        · simp only [mapExcept, hfx, hm, List.mem_cons]
          constructor
          · intro _
            rcases ih.mp ⟨e, hm⟩ with ⟨x', hx', he'⟩
            exact ⟨x', Or.inr hx', he'⟩
          · intro _
            exact ⟨e, rfl⟩
        · simp only [mapExcept, hfx, hm, List.mem_cons]
          constructor
          · rintro ⟨e, he⟩
            exact absurd he (by simp)
          · rintro ⟨x', hx' | hx', e', he'⟩
            · rw [hx'] at he'
              rw [hfx] at he'
              exact absurd he' (by simp)
            · exact absurd (ih.mpr ⟨x', hx', e', he'⟩) (by simp [hm])


theorem totalsFor_eq (S : SessionFrame) (m : String) (hm : m ∈ fixedMonthOrder) :
    totalsFor S m
      = [{ month_name := m, dim_deviceCategory := some "Total",
           sessions := ((mdMonthRows S m).map (fun r => r.sessions)).sum,
           transactions := ((mdMonthRows S m).map (fun r => r.transactions)).sum,
           QTY := ((mdMonthRows S m).map (fun r => r.QTY)).sum,
           ECR := pfSumSkipNa ((mdMonthRows S m).map (fun r => r.ECR)) }] := by
  rw [totalsFor, month_device_totals_totalsRows]
  have hnd : ((create_month_device S).1.monthCats).Nodup := by
    have hc : ((create_month_device S).1.monthCats) = fixedMonthOrder := rfl
    rw [hc]
    decide
  exact filter_map_nodup _ (fun r : TotRow => r.month_name) (fun x => rfl)
    ((create_month_device S).1.monthCats) hnd m hm

/-- Claim C1 (corrected).  For every normalized session table, the
Device/Category Aggregator's output has exactly one row per pair in the
product of the hard-coded July–June month list with the observed device
categories — pairs absent from the input thus appear (with zero sums) —
enumerated in that fixed month order, then by ascending device category;
the device list is exactly the set of device categories observed in the
input, strictly sorted. -/
theorem c1_theorem (S : SessionFrame) :
    ((create_month_device S).1.rows.map (fun r => (r.month_name, r.dim_deviceCategory))
      = fixedMonthOrder.flatMap (fun m => (deviceCats S).map (fun d => (m, d))))
    ∧ (deviceCats S).Pairwise (fun a b => a < b)
    ∧ (∀ d, d ∈ deviceCats S ↔ ∃ r ∈ S.rows, r.dim_deviceCategory = d) := by
  refine ⟨?_, deviceCats_sorted_lt S, fun d => mem_deviceCats S d⟩
  simp only [create_month_device, List.map_flatMap, List.map_map]
  rfl

/-- Claim C1, counterexample to the claim as stated: on a table holding only
(July, Desktop) and (August, Mobile) rows, the aggregate contains a
(July, Mobile) row although that pair occurs nowhere in the input. -/
theorem c1_counterexample :
    (("July", "Mobile") ∈ (create_month_device exC1S).1.rows.map
        (fun r => (r.month_name, r.dim_deviceCategory)))
    ∧ (∀ r ∈ exC1S.rows, ¬ (r.month_name = "July" ∧ r.dim_deviceCategory = "Mobile")) := by
  with_unfolding_all decide

/-- Claim C2 (confirmed).  When `clean_tables` succeeds, the session frame's
categorical month domain is exactly the first-seen sequence of the session
rows' month names, and every month name appearing in the month-to-month
comparison built downstream (from the frame as mutated by
`create_month_device`, as in `generate_excel`) belongs to that domain — so a
month present only in the cart data can never appear there. -/
theorem c2_theorem (rawS : List RawSessionRow) (rawC : List RawCartRow)
    (S : SessionFrame) (C : CartFrame)
    (h : clean_tables rawS rawC = .ok (S, C)) :
    S.monthCats = dedupFirstSeen (S.rows.map (fun r => r.month_name))
    ∧ ∀ m, m ∈ (create_mtm_compare (create_month_device S).2 C).map (fun r => r.month_name)
        → m ∈ S.monthCats := by
  rw [clean_tables] at h
  rcases hs : mapExcept cleanSessionRow rawS with e | srows
  · rw [hs] at h
    exact absurd h (by simp)
  · rw [hs] at h
    rcases hc : mapExcept cleanCartMonth rawC with e | cms
    · rw [hc] at h
      exact absurd h (by simp)
    · rw [hc] at h
      simp only [Except.ok.injEq, Prod.mk.injEq] at h
      rcases h with ⟨hS, hC⟩
      subst hS
      subst hC
      refine ⟨rfl, ?_⟩
      intro m hm
      rw [create_mtm_compare, map_month_deltaRows] at hm
      rcases List.mem_map.mp hm with ⟨x, hx, rfl⟩
      simp only [mtm_merged] at hx
      rcases List.mem_flatMap.mp hx with ⟨l, _, hxl⟩
      rcases List.mem_map.mp hxl with ⟨c, hc2, rfl⟩
      rcases List.mem_filter.mp hc2 with ⟨hcC, hcm⟩
      have hcm2 := of_decide_eq_true hcm
      rcases List.mem_map.mp hcC with ⟨p, _, rfl⟩
      simp only at hcm2
      by_cases hin : p.2 ∈ dedupFirstSeen (srows.map (fun r => r.month_name))
      · rw [if_pos hin] at hcm2
        have hp2 : p.2 = l.month_name := Option.some.inj hcm2
        exact hp2 ▸ hin
      · rw [if_neg hin] at hcm2
        exact absurd hcm2 (by simp)

set_option maxRecDepth 100000 in
theorem c2_witness :
    clean_tables exC2rawS exC2rawC = .ok (exC2S, exC2C)
    ∧ exC2S.monthCats = dedupFirstSeen (exC2S.rows.map (fun r => r.month_name))
    ∧ "July" ∈ exC2S.monthCats :=
  ⟨by with_unfolding_all decide,
   (c2_theorem exC2rawS exC2rawC exC2S exC2C (by with_unfolding_all decide)).1,
   (c2_theorem exC2rawS exC2rawC exC2S exC2C (by with_unfolding_all decide)).2 "July"
     (by with_unfolding_all decide)⟩

/-- Claim C3 (corrected).  In all three aggregations the ECR cell is the
total float division `transactions / sessions`: the exact ratio whenever the
summed sessions are nonzero, and, when they are zero, NaN if the summed
transactions are also zero but `±inf` if they are not (the claim said NaN
for every zero-session group); no division ever raises. -/
theorem c3_theorem (S : SessionFrame) :
    (∀ r ∈ (create_month_device S).1.rows, ECRok r.transactions r.sessions r.ECR)
    ∧ (∀ b ∈ create_browser_device S, ECRok b.transactions b.sessions b.ECR)
    ∧ (∀ g ∈ mtm_grouped S, ECRok g.transactions g.sessions g.ECR) := by
  refine ⟨fun r hr => ?_, fun b hb => ?_, fun g hg => ?_⟩
  · rw [mem_create_month_device_ECR S r hr]
    exact ECRok_div _ _
  · rw [mem_create_browser_device_ECR S b hb]
    exact ECRok_div _ _
  · rw [mem_mtm_grouped_ECR S g hg]
    exact ECRok_div _ _

theorem c3_witness :
    exC3row ∈ (create_month_device exC3S).1.rows
    ∧ exC3row.sessions ≠ 0
    ∧ exC3row.ECR = PFloat.rat (exC3row.transactions / exC3row.sessions) :=
  ⟨by with_unfolding_all decide, by with_unfolding_all decide,
   ((c3_theorem exC3S).1 exC3row (by with_unfolding_all decide)).2.1
     (by with_unfolding_all decide)⟩

/-- Claim C3, counterexample to the claim as stated: a group summing to zero
sessions and one transaction gets ECR `inf`, not NaN. -/
theorem c3_counterexample :
    exC3brow ∈ (create_month_device exC3bS).1.rows
    ∧ exC3brow.sessions = 0 ∧ exC3brow.ECR = PFloat.inf
    ∧ PFloat.inf ≠ PFloat.nan := by
  with_unfolding_all decide

/-- Claim C5 (corrected).  For every month of the fixed ordering, the
Totals Augmenter's synthetic "Total" row holds the componentwise sums of
sessions, transactions and quantity over ALL of that month's rows of the
aggregate passed in (which coincide with the non-Total rows exactly when no
device category of the input is itself "Total"), and the synthetic rows all
appear in the final sorted output. -/
theorem c5_theorem (S : SessionFrame) (m : String) (hm : m ∈ fixedMonthOrder) :
    (totalsFor S m).map (fun r => (r.sessions, r.transactions, r.QTY))
      = [(((mdMonthRows S m).map (fun r => r.sessions)).sum,
          ((mdMonthRows S m).map (fun r => r.transactions)).sum,
          ((mdMonthRows S m).map (fun r => r.QTY)).sum)]
    ∧ ∀ r ∈ month_device_totals_totalsRows (create_month_device S).1,
        r ∈ create_month_device_totals (create_month_device S).1 := by
  constructor
  · rw [totalsFor_eq S m hm]
    rfl
  · intro r hr
    rw [create_month_device_totals]
    refine ((sortKey_perm _ _).mem_iff).mpr ?_
    exact List.mem_append.mpr (Or.inr hr)

theorem c5_witness :
    "July" ∈ fixedMonthOrder
    ∧ (totalsFor exC5wS "July").map (fun r => (r.sessions, r.transactions, r.QTY))
        = [(((mdMonthRows exC5wS "July").map (fun r => r.sessions)).sum,
            ((mdMonthRows exC5wS "July").map (fun r => r.transactions)).sum,
            ((mdMonthRows exC5wS "July").map (fun r => r.QTY)).sum)] :=
  ⟨by decide, (c5_theorem exC5wS "July" (by decide)).1⟩

/-- Claim C5, counterexample to the claim as stated: when the aggregate
already holds a device category literally named "Total" (July: Total with 2
sessions, Desktop with 1), the synthetic July Total row sums to 3, while
the sum over the month's non-Total rows is 1. -/
theorem c5_counterexample :
    ((totalsFor exC5S "July").map (fun r => r.sessions) = [3])
    ∧ ((((create_month_device exC5S).1.rows.filter
          (fun r => decide (r.month_name = "July" ∧ r.dim_deviceCategory ≠ "Total"))).map
          (fun r => r.sessions)).sum = 1)
    ∧ ((3 : ℚ) ≠ 1) := by
  with_unfolding_all decide

/-- Claim C6 (confirmed).  The ECR cell of each synthetic "Total" row is the
pandas sum of the ECR values of that month's per-device rows (NaN entries
skipped, like every pandas groupby sum), i.e. a sum of ratios — not the
ratio of the summed transactions to the summed sessions. -/
theorem c6_theorem (S : SessionFrame) (m : String) (hm : m ∈ fixedMonthOrder) :
    (totalsFor S m).map (fun r => r.ECR)
      = [pfSumSkipNa ((mdMonthRows S m).map (fun r => r.ECR))] := by
  rw [totalsFor_eq S m hm]
  rfl

theorem c6_witness :
    "July" ∈ fixedMonthOrder
    ∧ (totalsFor exC6S "July").map (fun r => r.ECR)
        = [pfSumSkipNa ((mdMonthRows exC6S "July").map (fun r => r.ECR))]
    ∧ (totalsFor exC6S "July").map (fun r => r.ECR) = [PFloat.rat (3 / 10)]
    ∧ PFloat.rat (3 / 10) ≠ PFloat.rat ((10 + 30) / (100 + 150)) :=
  ⟨by decide, c6_theorem exC6S "July" (by decide),
   by with_unfolding_all decide, by with_unfolding_all decide⟩

/-- Claim C7 (confirmed).  The first row of the month-to-month comparison
has every absolute-change and percent-change field undefined (NaN), and each
subsequent row's absolute change is the metric's value minus the previous
row's value while its percent change is
`(value - previous) / previous * 100` with the sign carried exactly. -/
theorem c7_theorem (S : SessionFrame) (C : CartFrame) :
    (∀ r, (create_mtm_compare S C).head? = some r → mtmFirstRowUndefined r)
    ∧ (create_mtm_compare S C).Chain' mtmDeltaOk := by
  constructor
  · intro r hr
    rw [create_mtm_compare] at hr
    rcases hms : mtm_merged S C with _ | ⟨c, rest⟩
    · rw [hms] at hr
      simp [deltaRows] at hr
    · rw [hms] at hr
      rw [deltaRows] at hr
      simp only [List.head?_cons, Option.some.injEq] at hr
      subst hr
      exact ⟨rfl, rfl, rfl, rfl, rfl, rfl, rfl, rfl, rfl, rfl⟩
  · rw [create_mtm_compare]
    exact chain_deltaRows (mtm_merged S C)
      (fun x hx => mem_mtm_merged_ECR_rat S C x hx) none

theorem c7_witness :
    (create_mtm_compare exC7S exC7C).head? = some exC7row0
    ∧ mtmFirstRowUndefined exC7row0
    ∧ (create_mtm_compare exC7S exC7C).Chain' mtmDeltaOk :=
  ⟨by with_unfolding_all decide,
   (c7_theorem exC7S exC7C).1 exC7row0 (by with_unfolding_all decide),
   (c7_theorem exC7S exC7C).2⟩

/-- Claim C8 (corrected).  `create_browser_device`, `create_mtm_compare` and
`create_month_device_totals` leave the tables passed in unchanged, but
`clean_tables` title-cases the session table's device column in place (and
adds derived columns), and `create_month_device` replaces its argument's
month categorical with the hard-coded list — mutations visible to the
caller. -/
theorem c8_theorem (S : SessionFrame) (C : CartFrame) (md : MDFrame)
    (rawS : List RawSessionRow) :
    create_browser_device_inputAfter S = S
    ∧ create_mtm_compare_inputAfter S C = (S, C)
    ∧ create_month_device_totals_inputAfter md = md
    ∧ (create_month_device S).2.rows = S.rows
    ∧ (create_month_device S).2.monthCats = fixedMonthOrder
    ∧ clean_tables_sessionInputAfter rawS
        = rawS.map (fun r => { r with dim_deviceCategory := titleCase r.dim_deviceCategory }) :=
  ⟨rfl, rfl, rfl, rfl, rfl, rfl⟩

/-- Claim C8, counterexample to the claim as stated: after `clean_tables`
the caller's raw session table has a different `dim_deviceCategory` column
("desktop" became "Desktop"), and `create_month_device` hands back a frame
whose month categories differ from those passed in. -/
theorem c8_counterexample :
    clean_tables_sessionInputAfter [exC8raw] ≠ [exC8raw]
    ∧ (create_month_device exC8S).2 ≠ exC8S := by
  with_unfolding_all decide

/-- Claim C9 (corrected).  For ASCII date strings — the alphabet over which
the embedded parsers model CPython exactly (`int()` and `strptime` also map
non-ASCII decimal digits, outside the modeled alphabet) — normalization
fails exactly when some session date string has fewer than three
slash-delimited components, or a month token (in either table) is not a
one- or two-digit numeral denoting 1–12, or Python's `int()` rejects the
`"20"`-prefixed session year string (`int()` tolerates surrounding
whitespace and single underscores between digits; its rejections are a
failure mode the claim omitted); on inputs violating none of these it
succeeds. -/
theorem c9_theorem (rawS : List RawSessionRow) (rawC : List RawCartRow)
    (hascii : ∀ r ∈ rawS, ∀ ch ∈ r.dim_date.data, ch.toNat < 128) :
    (∃ e, clean_tables rawS rawC = .error e)
      ↔ ((∃ r ∈ rawS, sessionRowBad r) ∨ (∃ c ∈ rawC, cartRowBad c)) := by
  rw [clean_tables]
  rcases hs : mapExcept cleanSessionRow rawS with e | srows
  · have h1 : ∃ r ∈ rawS, sessionRowBad r := by
      rcases (mapExcept_error_iff cleanSessionRow rawS).mp ⟨e, hs⟩ with ⟨r, hr, he⟩
      exact ⟨r, hr, (cleanSessionRow_error_iff r).mp he⟩
    simp [h1]
  · rcases hc : mapExcept cleanCartMonth rawC with e | cms
    · have h1 : ∃ c ∈ rawC, cartRowBad c := by
        rcases (mapExcept_error_iff cleanCartMonth rawC).mp ⟨e, hc⟩ with ⟨c, hcm, he⟩
        exact ⟨c, hcm, (cleanCartMonth_error_iff c).mp he⟩
      simp [h1]
    · constructor
      · rintro ⟨e, he⟩
        exact absurd he (by simp)
      · rintro (⟨r, hr, hbad⟩ | ⟨c2, hc2, hbad⟩)
        · rcases (cleanSessionRow_error_iff r).mpr hbad with ⟨e, he⟩
          rcases (mapExcept_error_iff cleanSessionRow rawS).mpr ⟨r, hr, e, he⟩ with ⟨e2, he2⟩
          rw [hs] at he2
          exact absurd he2 (by simp)
        · rcases (cleanCartMonth_error_iff c2).mpr hbad with ⟨e, he⟩
          rcases (mapExcept_error_iff cleanCartMonth rawC).mpr ⟨c2, hc2, e, he⟩ with ⟨e2, he2⟩
          rw [hc] at he2
          exact absurd he2 (by simp)

/-- Claim C9, counterexample to the claim as stated: the date "1/2/xx" has
the full three components and an in-range month token, yet normalization
fails (on the non-numeric year). -/
theorem c9_counterexample :
    clean_tables [exC9raw] [] = .error (.badYear "20xx")
    ∧ ¬ ((splitSlash exC9raw.dim_date).length < 3)
    ∧ ¬ (map_month ((splitSlash exC9raw.dim_date).headD "") = none) := by
  refine ⟨by decide, by decide, by decide⟩

theorem c9_witness :
    (∀ r ∈ [exC9okraw], ∀ ch ∈ r.dim_date.data, ch.toNat < 128)
    ∧ ((∃ e, clean_tables [exC9okraw] [] = .error e)
        ↔ ((∃ r ∈ [exC9okraw], sessionRowBad r) ∨ (∃ c ∈ ([] : List RawCartRow), cartRowBad c)))
    ∧ clean_tables [exC9okraw] []
        = .ok ({ monthCats := ["January"],
                 rows := [{ dim_date := "1/2/12 ", dim_deviceCategory := "Desktop",
                            dim_browser := "Chrome", sessions := 1, transactions := 1,
                            QTY := 1, Month := "1", Year := 2012,
                            month_name := "January" }] },
               { monthCats := ["January"], rows := [] }) :=
  ⟨by decide, c9_theorem [exC9okraw] [] (by decide), by decide⟩

/-- Claim C10 (confirmed).  The pipeline is a pure function of its two
parsed input tables: runs on equal inputs yield equal report quadruples (no
randomness, clock, or state outside the frames is consulted anywhere in the
transformation). -/
theorem c10_theorem (rawS1 rawS2 : List RawSessionRow) (rawC1 rawC2 : List RawCartRow)
    (h1 : rawS1 = rawS2) (h2 : rawC1 = rawC2) :
    pipeline rawS1 rawC1 = pipeline rawS2 rawC2 := by
  rw [h1, h2]

theorem c10_witness :
    pipeline exC10rawS exC10rawC = pipeline exC10rawS exC10rawC :=
  c10_theorem exC10rawS exC10rawS exC10rawC exC10rawC rfl rfl

end WebAgg
